import Mathlib

/-!
Verification of the ADSBoost boost-factor scoring engine
(`adsboost/app.py`, class `ADSBoostCelery`) against its specification.

The Python engine is shallowly embedded: records and the ranking
configuration are explicit immutable values, Python dictionaries are
association lists (`List (String × ℚ)`) with insert-or-overwrite update
semantics, floating point arithmetic is modelled by exact rationals, and
a function that can raise an uncaught exception returns `Option` / a
dedicated result type (`none` = the exception propagates).  The current
time (`datetime.now()`), read by the recency stage, is an explicit
parameter `now`, given as a proleptic Gregorian ordinal day number — the
same quantity Python's `datetime.toordinal` yields; the time of day
cancels out of `(now - reference_date).days` because the reference date
is always midnight.

External collaborators (database storage, Celery messaging) are outside
the engine and are not modelled; `process_boost_request` is embedded up
to the point where its result is handed to them.
-/

namespace ADSBoost

/-- A Python dict with `String` keys and float values, as an ordered
association list (Python dicts preserve insertion order). -/
abbrev Dict := List (String × ℚ)

/-- Insert-or-overwrite, keeping the original position of an existing
key and appending a new key at the end — Python `d[k] = v`. -/
def dictInsert (k : String) (v : ℚ) : Dict → Dict
  | [] => [(k, v)]
  | (k', v') :: rest =>
      if k' = k then (k, v) :: rest else (k', v') :: dictInsert k v rest

/-- Python `d.update(new)`: insert every pair of `new` in order. -/
def dictUpdate (d new : Dict) : Dict :=
  new.foldl (fun acc p => dictInsert p.1 p.2 acc) d

/-- A JSON value that is either a single string or a list of strings —
the two input shapes accepted for `classifications` and
`bib_data.database`. -/
inductive StrOrList where
  | str (s : String)
  | list (l : List String)
deriving DecidableEq, Repr

/-- Python truthiness of an optional string (`None` and `""` are falsy). -/
def strTruthy : Option String → Bool
  | none => false
  | some s => s ≠ ""

/-- Python truthiness of an optional string-or-list value. -/
def solTruthy : Option StrOrList → Bool
  | none => false
  | some (.str s) => s ≠ ""
  | some (.list l) => l ≠ []

/-- The `bib_data` sub-mapping of an incoming record; `none` fields are
absent keys. -/
structure BibData where
  bibcode : Option String := none
  scix_id : Option String := none
  refereed : Option Bool := none
  doctype : Option String := none
  pubdate : Option String := none
  entry_date : Option String := none
  database : Option StrOrList := none
deriving DecidableEq, Repr

/-- An incoming record.  `metrics_refereed = some b` models a present
`metrics` section whose `refereed` flag has truthiness `b`
(`record['metrics'].get('refereed', False)`); `none` models an absent
`metrics` section. -/
structure Record where
  bibcode : Option String := none
  scix_id : Option String := none
  bib_data : Option BibData := none
  metrics_refereed : Option Bool := none
  classifications : Option StrOrList := none
deriving DecidableEq, Repr

/-- The configuration keys read by the engine; `none` is an absent key. -/
structure Config where
  DOCTYPE_RANKING : Option (List (String × Int)) := none
  COLLECTION_RANKINGS : Option (List (String × List (String × Option Int))) := none
  COLLECTIONS : Option (List String) := none
  BOOST_FACTOR_WEIGHTS : Option Dict := none
  RECENCY_BOOST_MULTIPLIER : Option ℚ := none
deriving DecidableEq, Repr

/-- The hard-coded default of `config.get('COLLECTIONS', [...])`. -/
def defaultCollections : List String :=
  ["astronomy", "physics", "earth_science", "planetary_science", "heliophysics", "general"]

/-- `compute_refereed_boost`: 1.0 when `metrics.refereed` is truthy, else
1.0 when `bib_data.refereed` is truthy, else 0.0. -/
def compute_refereed_boost (record : Record) : ℚ :=
  if record.metrics_refereed.getD false then 1
  else if (record.bib_data.map fun bd => bd.refereed.getD false).getD false then 1
  else 0

/-- `sorted(set(l))` for integer rank values: strictly ascending,
duplicate-free. -/
def insSorted (x : Int) : List Int → List Int
  | [] => [x]
  | y :: ys => if x < y then x :: y :: ys else if x = y then y :: ys else y :: insSorted x ys

/-- `sorted(set(l))`. -/
def sortedDedup (l : List Int) : List Int := l.foldr insSorted []

/-- Python `s.lower()` (ASCII case folding, character by character). -/
def strLower (s : String) : String := ⟨s.data.map Char.toLower⟩

/-- `compute_doctype_boost`: rank table → evenly spaced scores, lowest
rank scoring 1.0.  `none` models the `ZeroDivisionError` raised while
building `rank_to_score` when there is exactly one distinct rank
(`1 - (i / (len(unique_ranks) - 1))` with a zero denominator). -/
def compute_doctype_boost (config : Config) (record : Record) : Option ℚ :=
  let doctype : String :=
    match record.bib_data with
    | some bd => strLower (bd.doctype.getD "")
    | none => ""
  match config.DOCTYPE_RANKING with
  | some doctype_rank =>
      if doctype_rank = [] then some 0
      else
        let unique_ranks := sortedDedup (doctype_rank.map Prod.snd)
        if unique_ranks.length = 1 then none
        else
          match doctype_rank.lookup doctype with
          | some rank =>
              some (1 - (unique_ranks.indexOf rank : ℚ) / ((unique_ranks.length : ℚ) - 1))
          | none => some 0
  | none => some 0

/-- The numeric value of a decimal digit string. -/
def digitsVal (s : String) : ℕ :=
  s.data.foldl (fun a c => a * 10 + (c.toNat - 48)) 0

/-- Gregorian leap year. -/
def isLeap (y : ℕ) : Bool := y % 4 = 0 ∧ (y % 100 ≠ 0 ∨ y % 400 = 0)

/-- Days in a month of the proleptic Gregorian calendar. -/
def daysInMonth (y m : ℕ) : ℕ :=
  if m = 2 then (if isLeap y then 29 else 28)
  else if m = 4 ∨ m = 6 ∨ m = 9 ∨ m = 11 then 30
  else 31

/-- Days in the months of year `y` strictly before month `m`. -/
def daysBeforeMonth (y m : ℕ) : ℕ :=
  (List.range (m - 1)).foldl (fun a i => a + daysInMonth y (i + 1)) 0

/-- Proleptic Gregorian ordinal of a date, as in Python
`datetime.toordinal` (0001-01-01 is day 1). -/
def toOrdinal (y m d : ℕ) : ℕ :=
  (y - 1) * 365 + (y - 1) / 4 - (y - 1) / 100 + (y - 1) / 400 + daysBeforeMonth y m + d

/-- One `%Y`/`%m`/`%d` field: 1 to `maxLen` decimal digits. -/
def validPart (s : String) (maxLen : ℕ) : Bool :=
  1 ≤ s.length ∧ s.length ≤ maxLen ∧ s.data.all Char.isDigit

/-- Split a character list at every `'-'`. -/
def splitDashAux : List Char → List (List Char)
  | [] => [[]]
  | x :: xs =>
      match splitDashAux xs with
      | [] => [[]]
      | g :: gs => if x = '-' then [] :: g :: gs else (x :: g) :: gs

/-- Python `s.split('-')`. -/
def splitDash (s : String) : List String :=
  (splitDashAux s.data).map fun l => ⟨l⟩

/-- `datetime.strptime(s, '%Y-%m-%d')`, returning the date's ordinal, or
`none` when parsing raises `ValueError` (wrong shape, non-digits, month
or day out of range). -/
def parseDateOrdinal (s : String) : Option ℕ :=
  match splitDash s with
  | [ys, ms, ds] =>
      if validPart ys 4 ∧ validPart ms 2 ∧ validPart ds 2 then
        let y := digitsVal ys
        let m := digitsVal ms
        let d := digitsVal ds
        if 1 ≤ y ∧ 1 ≤ m ∧ m ≤ 12 ∧ 1 ≤ d ∧ d ≤ daysInMonth y m then
          some (toOrdinal y m d)
        else none
      else none
  | _ => none

/-- Python `s.endswith('-00')`. -/
def endsWith00 (s : String) : Bool :=
  3 ≤ s.data.length ∧ s.data.drop (s.data.length - 3) = ['-', '0', '0']

/-- Python `s[:-2] + '01'`. -/
def sub00 (s : String) : String :=
  ⟨s.data.take (s.data.length - 2) ++ ['0', '1']⟩

/-- The reference-date logic of `compute_recency_boost`: extract
`pubdate` / `entry_date` from `bib_data`, substitute a trailing `-00`
day in `pubdate` only, and parse.  `none` covers every path of the
source that returns the neutral 1.0 (no usable date): both dates absent
or falsy, or a required parse failing inside its `try`/`except`.  When
both dates parse the earlier (minimum) ordinal is the reference. -/
def recencyReference (record : Record) : Option ℕ :=
  let pub_date0 : Option String :=
    match record.bib_data with
    | some bd => bd.pubdate
    | none => none
  let entry_date : Option String :=
    match record.bib_data with
    | some bd => bd.entry_date
    | none => none
  if ¬ strTruthy pub_date0 ∧ ¬ strTruthy entry_date then none
  else
    let pub_date : Option String :=
      match pub_date0 with
      | some p => if strTruthy (some p) ∧ endsWith00 p then some (sub00 p) else some p
      | none => none
    if strTruthy pub_date ∧ strTruthy entry_date then
      match parseDateOrdinal (pub_date.getD ""), parseDateOrdinal (entry_date.getD "") with
      | some pd, some ed => some (min pd ed)
      | _, _ => none
    else if strTruthy pub_date then parseDateOrdinal (pub_date.getD "")
    else if strTruthy entry_date then parseDateOrdinal (entry_date.getD "")
    else none

/-- `(datetime.now() - reference_date).days / 30.44` with both datetimes
reduced to ordinals (the time of day cancels in `.days`). -/
def ageMonths (now ref : ℕ) : ℚ :=
  (((now : ℤ) - (ref : ℤ) : ℤ) : ℚ) / (3044 / 100 : ℚ)

/-- `compute_recency_boost`: neutral 1.0 without a usable reference
date or beyond 24 months of age, else the reciprocal decay
`1 / (1 + multiplier * age_months)`.  `none` models the uncaught
`ZeroDivisionError` when the denominator is exactly zero. -/
def compute_recency_boost (config : Config) (now : ℕ) (record : Record) : Option ℚ :=
  match recencyReference record with
  | none => some 1
  | some reference_date =>
      let age_months := ageMonths now reference_date
      if 24 < age_months then some 1
      else
        let multiplier := config.RECENCY_BOOST_MULTIPLIER.getD (1 / 10)
        if 1 + multiplier * age_months = 0 then none
        else some (1 / (1 + multiplier * age_months))

/-- `str(v).lower().replace(' ', '_')` — case folding then replacing
every space by an underscore (the pattern is a single character, so a
character-wise map is exact). -/
def normTag (s : String) : String :=
  ⟨(strLower s).data.map fun c => if c = ' ' then '_' else c⟩

/-- The collection-tag extraction of `compute_collection_weights`:
prefer a truthy `classifications` (string → singleton, list → as is),
else a truthy `bib_data.database`; normalize, drop falsy entries, and
default to `['general']` when nothing resolves. -/
def recordCollections (record : Record) : List String :=
  let raw_values : Option StrOrList :=
    if solTruthy record.classifications then record.classifications
    else
      match record.bib_data with
      | some bd => if solTruthy bd.database then bd.database else none
      | none => none
  let record_collections : List String :=
    match raw_values with
    | some (.list l) => (l.filter fun v => v ≠ "").map normTag
    | some (.str s) => if s ≠ "" then [normTag s] else []
    | none => []
  if record_collections = [] then ["general"] else record_collections

/-- `{f'{c}_weight': 1.0 for c in collections}`. -/
def constWeightDict (collections : List String) : Dict :=
  collections.foldl (fun acc c => dictInsert (c ++ "_weight") 1 acc) []

/-- All distinct non-`None` rank values anywhere in
`COLLECTION_RANKINGS`, ascending. -/
def collectRanks (cr : List (String × List (String × Option Int))) : List Int :=
  sortedDedup ((cr.map fun p => p.2.filterMap fun q => q.2).flatten)

/-- The `rank_to_weight` table: highest rank value ↦ 1.0 down to 0.1
for the lowest, evenly spaced; a single rank ↦ 1.0.  `sorted_ranks` is
the distinct ranks in descending order; ranks outside it are absent
(`none`), mirroring `rank_to_weight.get(rank, 0.0)`. -/
def rankToWeight (sorted_ranks : List Int) (rank : Int) : Option ℚ :=
  if sorted_ranks.contains rank then
    some (if sorted_ranks.length = 1 then 1
          else 1 - (9 / 10 : ℚ) * (sorted_ranks.indexOf rank : ℚ) / ((sorted_ranks.length : ℚ) - 1))
  else none

/-- The inner loop of `compute_collection_weights`: the maximum weight
for one discipline over all of the record's collection tags, starting
from 0.0. -/
def disciplineMaxWeight (collection_rankings : List (String × List (String × Option Int)))
    (sorted_ranks : List Int) (record_collections : List String) (discipline : String) : ℚ :=
  record_collections.foldl
    (fun mw rc =>
      let collection_table := (collection_rankings.lookup rc).getD []
      match (collection_table.lookup discipline).join with
      | some rank => max mw ((rankToWeight sorted_ranks rank).getD 0)
      | none => mw)
    0

/-- `compute_collection_weights`: per-discipline weights.  Highest rank
value ↦ 1.0 down to 0.1 for the lowest (single rank ↦ 1.0); a record
tagged `general` gets 1.0 everywhere; each discipline receives the
maximum weight over the record's tags, absent entries contributing 0. -/
def compute_collection_weights (config : Config) (record : Record) : Dict :=
  let record_collections := recordCollections record
  let collection_rankings := config.COLLECTION_RANKINGS.getD []
  if collection_rankings = [] then
    constWeightDict (config.COLLECTIONS.getD defaultCollections)
  else
    let collections := config.COLLECTIONS.getD defaultCollections
    let all_ranks := collectRanks collection_rankings
    if all_ranks = [] then constWeightDict collections
    else
      let sorted_ranks := all_ranks.reverse
      if record_collections.contains "general" then
        constWeightDict collections
      else
        collections.foldl
          (fun acc discipline =>
            dictInsert (discipline ++ "_weight")
              (disciplineMaxWeight collection_rankings sorted_ranks record_collections discipline)
              acc)
          []

/-- Sum of a dict's values — Python `sum(d.values())`. -/
def sumVals (d : Dict) : ℚ := (d.map Prod.snd).sum

/-- The hard-coded default weights of `compute_final_boost`. -/
def defaultWeights : Dict :=
  [("refereed_boost", 6 / 10), ("doctype_boost", 4 / 10), ("recency_boost", 0)]

/-- One iteration of the final-boost loop of `compute_final_boost`:
`final_boosts[f'{c}_final_boost'] = collection_weights[f'{c}_weight'] *
boost_factor`, the direct indexing raising `KeyError` (`none`) when the
weight key is missing. -/
def finalBoostStep (collection_weights : Dict) (boost_factor : ℚ) (acc : Dict)
    (collection : String) : Option Dict :=
  (collection_weights.lookup (collection ++ "_weight")).bind fun w =>
    some (dictInsert (collection ++ "_final_boost") (w * boost_factor) acc)

/-- Step 4 of `compute_final_boost`: the combined `boost_factor` as a
weighted average with the configured (or default) weights, or — when
the total weight is not positive — the plain mean of *all* values of
the dict handed in.  `none` models an uncaught `KeyError` (a missing
weight or boost key) or `ZeroDivisionError` (mean of an empty dict). -/
def finalBoostFactor (config : Config) (boost_factors : Dict) : Option ℚ := do
  let weights0 := config.BOOST_FACTOR_WEIGHTS.getD []
  let weights := if weights0 = [] then defaultWeights else weights0
  let total_weight := sumVals weights
  if 0 < total_weight then do
    let normalized_weights := weights.map fun p => (p.1, p.2 / total_weight)
    let wr ← normalized_weights.lookup "refereed_boost"
    let wd ← normalized_weights.lookup "doctype_boost"
    let wc ← normalized_weights.lookup "recency_boost"
    let br ← boost_factors.lookup "refereed_boost"
    let bd ← boost_factors.lookup "doctype_boost"
    let bc ← boost_factors.lookup "recency_boost"
    pure (br * wr + bd * wd + bc * wc)
  else
    if boost_factors = [] then none
    else pure (sumVals boost_factors / (boost_factors.length : ℚ))

/-- `compute_final_boost`: the combined boost factor times each
discipline weight. -/
def compute_final_boost (config : Config) (boost_factors : Dict) (record : Record) :
    Option Dict := do
  let boost_factor ← finalBoostFactor config boost_factors
  let collection_weights := compute_collection_weights config record
  let collections := config.COLLECTIONS.getD defaultCollections
  let final_boosts ← collections.foldlM (finalBoostStep collection_weights boost_factor) []
  pure final_boosts

/-- `compute_boost_factors`: the full scoring call.  `none` models an
uncaught exception: the doctype or recency stage raising, the
`ZeroDivisionError` of normalizing weights that sum to 0, or the
`KeyError` of reading the three boost weights out of
`normalized_weights` (which is empty when `BOOST_FACTOR_WEIGHTS` is
absent — the defaults of `compute_final_boost` are applied only there,
after this normalization already ran). -/
def compute_boost_factors (config : Config) (now : ℕ) (record : Record) : Option Dict := do
  let refereed := compute_refereed_boost record
  let doctype ← compute_doctype_boost config record
  let recency ← compute_recency_boost config now record
  let boost_factors0 : Dict :=
    [("refereed_boost", refereed), ("doctype_boost", doctype), ("recency_boost", recency)]
  let weights := config.BOOST_FACTOR_WEIGHTS.getD []
  let total_weight := sumVals weights
  if weights ≠ [] ∧ total_weight = 0 then none
  else do
    let normalized_weights := weights.map fun p => (p.1, p.2 / total_weight)
    let wr ← normalized_weights.lookup "refereed_boost"
    let wd ← normalized_weights.lookup "doctype_boost"
    let wc ← normalized_weights.lookup "recency_boost"
    let boost_factor := refereed * wr + doctype * wd + recency * wc
    let bf1 := dictInsert "boost_factor" boost_factor boost_factors0
    let collection_weights := compute_collection_weights config record
    let bf2 := dictUpdate bf1 collection_weights
    let final_boosts ← compute_final_boost config bf2 record
    pure (dictUpdate bf2 final_boosts)

/-- What `process_boost_request` does with one request, as seen by its
caller: a silent skip (`return` after logging), a computed set of boost
factors handed to storage and messaging, or a propagated exception. -/
inductive ProcessResult where
  | skipped
  | processed (boost_factors : Dict)
  | errored
deriving DecidableEq, Repr

/-- The bibcode after the fallback of `process_boost_request`:
`request.get('bibcode')`, and when that is falsy and `bib_data` exists,
`request['bib_data'].get('bibcode', '')`. -/
def resolvedBibcode (request : Record) : Option String :=
  let b := request.bibcode
  if ¬ strTruthy b then
    match request.bib_data with
    | some bd => some (bd.bibcode.getD "")
    | none => b
  else b

/-- The scix_id after the analogous fallback. -/
def resolvedScix (request : Record) : Option String :=
  let s := request.scix_id
  if ¬ strTruthy s then
    match request.bib_data with
    | some bd => some (bd.scix_id.getD "")
    | none => s
  else s

/-- `process_boost_request` up to the handoff to storage/messaging:
a falsy resolved bibcode is logged and skipped (plain `return`);
otherwise the record is scored, a raising scoring call propagating as
an error. -/
def process_boost_request (config : Config) (now : ℕ) (request : Record) : ProcessResult :=
  if ¬ strTruthy (resolvedBibcode request) then ProcessResult.skipped
  else
    match compute_boost_factors config now request with
    | some boost_factors => ProcessResult.processed boost_factors
    | none => ProcessResult.errored

/-! ### Helper lemmas about the dictionary model -/

/-- Looking a key up after an insert-or-overwrite. -/
theorem lookup_dictInsert (k k' : String) (v : ℚ) (d : Dict) :
    (dictInsert k' v d).lookup k = if k = k' then some v else d.lookup k := by
  induction d with
  | nil =>
    by_cases hk : k = k'
    · simp [dictInsert, List.lookup, hk]
    · simp [dictInsert, List.lookup, hk, beq_eq_false_iff_ne.mpr hk]
  | cons p rest ih =>
    obtain ⟨pk, pv⟩ := p
    by_cases hpk : pk = k'
    · subst hpk
      by_cases hk : k = pk
      · simp [dictInsert, List.lookup, hk]
      · simp [dictInsert, List.lookup, hk, beq_eq_false_iff_ne.mpr hk]
    · by_cases hk : k = pk
      · subst hk
        simp [dictInsert, List.lookup, hpk, Ne.symm hpk]
      · simp [dictInsert, List.lookup, hpk, hk, beq_eq_false_iff_ne.mpr hk, ih]

/-- Every member of `dictInsert k v d` is the new pair or an old member. -/
theorem mem_dictInsert (p : String × ℚ) (k : String) (v : ℚ) (d : Dict)
    (hp : p ∈ dictInsert k v d) : p = (k, v) ∨ p ∈ d := by
  induction d with
  | nil => simpa [dictInsert] using hp
  | cons q rest ih =>
    obtain ⟨qk, qv⟩ := q
    by_cases hqk : qk = k
    · subst hqk
      simp only [dictInsert, if_pos rfl] at hp
      rcases List.mem_cons.mp hp with h | h
      · exact Or.inl h
      · exact Or.inr (List.mem_cons_of_mem _ h)
    · simp only [dictInsert, if_neg hqk] at hp
      rcases List.mem_cons.mp hp with h | h
      · exact Or.inr (h ▸ List.mem_cons_self _ _)
      · rcases ih h with h' | h'
        · exact Or.inl h'
        · exact Or.inr (List.mem_cons_of_mem _ h')

/-- A key foreign to the update is unaffected by it. -/
theorem lookup_dictUpdate (d new : Dict) (k : String)
    (h : ∀ p ∈ new, p.1 ≠ k) : (dictUpdate d new).lookup k = d.lookup k := by
  induction new generalizing d with
  | nil => rfl
  | cons p rest ih =>
    have hp : p.1 ≠ k := h p (List.mem_cons_self _ _)
    have hrest : ∀ q ∈ rest, q.1 ≠ k := fun q hq => h q (List.mem_cons_of_mem _ hq)
    show (dictUpdate (dictInsert p.1 p.2 d) rest).lookup k = d.lookup k
    rw [ih _ hrest, lookup_dictInsert, if_neg (fun hk => hp hk.symm)]

/-- Keys produced by a fold of inserts all have the shape of the
inserted keys. -/
theorem keys_shape_foldl {α : Type} (key : α → String) (val : α → ℚ) (P : String → Prop)
    (l : List α) (acc : Dict)
    (hacc : ∀ p ∈ acc, P p.1) (hkey : ∀ x, P (key x)) :
    ∀ p ∈ l.foldl (fun a x => dictInsert (key x) (val x) a) acc, P p.1 := by
  induction l generalizing acc with
  | nil => exact hacc
  | cons x xs ih =>
    intro p hp
    refine ih (dictInsert (key x) (val x) acc) ?_ p hp
    intro q hq
    rcases mem_dictInsert q (key x) (val x) acc hq with h | h
    · rw [h]; exact hkey x
    · exact hacc q h

/-- Looking up `d ++ "_weight"` after folding constant-1 inserts over a
list containing `d` yields 1. -/
theorem lookup_foldl_one (l : List String) (acc : Dict) (d : String)
    (h : d ∈ l ∨ acc.lookup (d ++ "_weight") = some 1) :
    (l.foldl (fun a c => dictInsert (c ++ "_weight") 1 a) acc).lookup (d ++ "_weight")
      = some 1 := by
  induction l generalizing acc with
  | nil =>
    rcases h with h | h
    · exact absurd h (List.not_mem_nil d)
    · exact h
  | cons c cs ih =>
    refine ih (dictInsert (c ++ "_weight") 1 acc) ?_
    rcases h with h | h
    · rcases List.mem_cons.mp h with rfl | hm
      · right; rw [lookup_dictInsert]; simp
      · left; exact hm
    · right; rw [lookup_dictInsert]
      split
      · rfl
      · exact h

/-- `List.contains` agrees with membership for strings. -/
theorem contains_iff_mem (l : List String) (a : String) : l.contains a = true ↔ a ∈ l := by
  simp [List.contains_iff_exists_mem_beq]

/-- Every tracked discipline is present (with weight 1) in the
fallback constant dict. -/
theorem lookup_constWeightDict (l : List String) (d : String) (hd : d ∈ l) :
    (constWeightDict l).lookup (d ++ "_weight") = some 1 :=
  lookup_foldl_one l [] d (Or.inl hd)

/-! ### Helper lemmas about strings -/

/-- An append cannot equal a target whose tail differs from the
appended suffix. -/
theorem append_ne_of_suffix_ne (a b t : String)
    (h : t.data.drop (t.data.length - b.data.length) ≠ b.data) : a ++ b ≠ t := by
  intro heq
  have hdata : a.data ++ b.data = t.data := by
    rw [← String.data_append a b, heq]
  apply h
  have hlen : t.data.length - b.data.length = a.data.length := by
    rw [← hdata, List.length_append]; omega
  rw [hlen, ← hdata, List.drop_left]

theorem data_append00 (s : String) : (s ++ "-00").data = s.data ++ ['-', '0', '0'] := by
  rw [String.data_append]

theorem data_append01 (s : String) : (s ++ "-01").data = s.data ++ ['-', '0', '1'] := by
  rw [String.data_append]

theorem append00_ne_empty (s : String) : s ++ "-00" ≠ "" := by
  intro h
  have := congrArg String.data h
  rw [data_append00] at this
  simpa using congrArg List.length this

theorem append01_ne_empty (s : String) : s ++ "-01" ≠ "" := by
  intro h
  have := congrArg String.data h
  rw [data_append01] at this
  simpa using congrArg List.length this

theorem endsWith00_append00 (s : String) : endsWith00 (s ++ "-00") = true := by
  unfold endsWith00
  rw [data_append00]
  have hl : (s.data ++ ['-', '0', '0']).length - 3 = s.data.length := by
    simp [List.length_append]
  rw [hl]
  simp [List.drop_left]

theorem endsWith00_append01 (s : String) : endsWith00 (s ++ "-01") = false := by
  unfold endsWith00
  rw [data_append01]
  have hl : (s.data ++ ['-', '0', '1']).length - 3 = s.data.length := by
    simp [List.length_append]
  rw [hl]
  simp [List.drop_left]

theorem sub00_append00 (s : String) : sub00 (s ++ "-00") = s ++ "-01" := by
  unfold sub00
  have hd : (s ++ "-01").data = s.data ++ ['-', '0', '1'] := data_append01 s
  have h2 : (s ++ "-00").data.length - 2 = s.data.length + 1 := by
    rw [data_append00]; simp [List.length_append]
  rw [h2, data_append00]
  have htake : (s.data ++ ['-', '0', '0']).take (s.data.length + 1) = s.data ++ ['-'] := by
    have := @List.take_append Char s.data ['-', '0', '0'] 1
    simpa using this
  rw [htake]
  cases s with
  | mk l => apply congrArg String.mk; simp [String.data_append]

/-- `sub00` always produces a non-empty string (it ends in `"01"`). -/
theorem sub00_ne_empty (s : String) : sub00 s ≠ "" := by
  unfold sub00
  intro h
  have := congrArg String.data h
  simp at this

theorem weight_key_ne_boost_factor (c : String) : c ++ "_weight" ≠ "boost_factor" := by
  apply append_ne_of_suffix_ne
  decide

theorem final_key_ne_boost_factor (c : String) : c ++ "_final_boost" ≠ "boost_factor" := by
  apply append_ne_of_suffix_ne
  decide

/-- The refereed stage only ever yields 0 or 1. -/
theorem compute_refereed_boost_cases (record : Record) :
    compute_refereed_boost record = 0 ∨ compute_refereed_boost record = 1 := by
  unfold compute_refereed_boost
  split_ifs <;> simp

/-- Every key of `compute_collection_weights` ends in `"_weight"`. -/
theorem collection_weights_keys (config : Config) (record : Record) :
    ∀ p ∈ compute_collection_weights config record, ∃ c, p.1 = c ++ "_weight" := by
  simp only [compute_collection_weights]
  split_ifs with h1 h2 h3
  · exact keys_shape_foldl (fun c => c ++ "_weight") (fun _ => 1)
      (fun k => ∃ c, k = c ++ "_weight") (config.COLLECTIONS.getD defaultCollections) []
      (by simp) (fun x => ⟨x, rfl⟩)
  · exact keys_shape_foldl (fun c => c ++ "_weight") (fun _ => 1)
      (fun k => ∃ c, k = c ++ "_weight") (config.COLLECTIONS.getD defaultCollections) []
      (by simp) (fun x => ⟨x, rfl⟩)
  · exact keys_shape_foldl (fun c => c ++ "_weight") (fun _ => 1)
      (fun k => ∃ c, k = c ++ "_weight") (config.COLLECTIONS.getD defaultCollections) []
      (by simp) (fun x => ⟨x, rfl⟩)
  · exact keys_shape_foldl (fun c => c ++ "_weight")
      (fun d => disciplineMaxWeight (config.COLLECTION_RANKINGS.getD [])
        (collectRanks (config.COLLECTION_RANKINGS.getD [])).reverse
        (recordCollections record) d)
      (fun k => ∃ c, k = c ++ "_weight") (config.COLLECTIONS.getD defaultCollections) []
      (by simp) (fun x => ⟨x, rfl⟩)

/-- Every key of the final-boosts dict built by `compute_final_boost`'s
loop ends in `"_final_boost"`. -/
theorem final_foldlM_keys (cw : Dict) (bf : ℚ) (l : List String) :
    ∀ (acc res : Dict),
      List.foldlM (finalBoostStep cw bf) acc l = some res →
      (∀ p ∈ acc, ∃ c, p.1 = c ++ "_final_boost") →
      ∀ p ∈ res, ∃ c, p.1 = c ++ "_final_boost" := by
  induction l with
  | nil =>
    intro acc res h hacc
    simp only [List.foldlM_nil] at h
    cases h
    exact hacc
  | cons c cs ih =>
    intro acc res h hacc
    rw [List.foldlM_cons] at h
    cases hw : cw.lookup (c ++ "_weight") with
    | none => simp [finalBoostStep, hw] at h
    | some w =>
      simp only [finalBoostStep, hw, Option.some_bind] at h
      refine ih _ res h ?_
      intro p hp
      rcases mem_dictInsert p (c ++ "_final_boost") (w * bf) acc hp with h' | h'
      · exact ⟨c, by rw [h']⟩
      · exact hacc p h'

/-- Every key of a successful `compute_final_boost` result ends in
`"_final_boost"`. -/
theorem compute_final_boost_keys (config : Config) (d : Dict) (record : Record) (fb : Dict)
    (h : compute_final_boost config d record = some fb) :
    ∀ p ∈ fb, ∃ c, p.1 = c ++ "_final_boost" := by
  simp only [compute_final_boost, Option.bind_eq_bind, Option.pure_def] at h
  rcases Option.bind_eq_some.mp h with ⟨bf, _, h⟩
  rcases Option.bind_eq_some.mp h with ⟨res, hres, hpure⟩
  cases hpure
  exact final_foldlM_keys _ _ _ [] fb hres (by simp)

/-- A present, non-empty optional string is truthy. -/
theorem strTruthy_some_of_ne (x : String) (h : x ≠ "") : strTruthy (some x) = true := by
  simp [strTruthy, h]

/-! ### Claim theorems -/

unseal Rat.add Rat.mul Rat.inv Rat.sub

/-- C1, counterexample: a request whose `scix_id` resolves (to the
truthy string `"scix-123"`) but whose bibcode does not is rejected by
`process_boost_request` without any scoring — contradicting the claim
that such a record is still scored.  Moreover a request with no
identity at all is also a silent skip, not an error result, so the
rejection is not surfaced to the caller as a processing failure. -/
theorem C1_counterexample :
    process_boost_request ({} : Config) 739038
        ({ scix_id := some "scix-123", bib_data := some { doctype := some "article" } } : Record)
      = ProcessResult.skipped ∧
    strTruthy (resolvedScix
        ({ scix_id := some "scix-123", bib_data := some { doctype := some "article" } } : Record))
      = true ∧
    process_boost_request ({} : Config) 739038 ({} : Record) = ProcessResult.skipped := by
  decide

/-- C1, amended: `process_boost_request` rejects a record exactly when
its bibcode fails to resolve (top-level or in `bib_data`), regardless
of `scix_id`; the rejection is a silent skip (a logged `return`), never
an error surfaced to the caller, and records with a resolving bibcode
always proceed to scoring. -/
theorem C1_amended (config : Config) (now : ℕ) (request : Record) :
    process_boost_request config now request = ProcessResult.skipped ↔
      strTruthy (resolvedBibcode request) = false := by
  unfold process_boost_request
  cases hb : strTruthy (resolvedBibcode request) with
  | false => simp
  | true =>
    simp only [Bool.true_eq_false, iff_false]
    cases hc : compute_boost_factors config now request <;> simp

/-- C2: the claim is the documented behaviour, but `compute_boost_factors`
implements neither fallback.  With `BOOST_FACTOR_WEIGHTS` absent the
weights dict is empty, `normalized_weights` is empty, and
`normalized_weights['refereed_boost']` raises `KeyError`; with
configured weights that are all 0 the normalization `v/total_weight`
raises `ZeroDivisionError`.  Both scoring calls abort (modelled as
`none`).  The documented default-weights and plain-mean fallbacks live
only in `compute_final_boost`, which on these inputs is never reached —
its own behaviour on the same configuration (third conjunct) is fine. -/
theorem C2_degenerate_weights_raise :
    compute_boost_factors ({} : Config) 739038
        ({ bib_data := some { doctype := some "article" } } : Record) = none ∧
    compute_boost_factors
        ({ BOOST_FACTOR_WEIGHTS := some
             [("refereed_boost", 0), ("doctype_boost", 0), ("recency_boost", 0)] } : Config)
        739038 ({ bib_data := some { doctype := some "article" } } : Record) = none ∧
    compute_final_boost ({ COLLECTIONS := some ["astronomy"] } : Config)
        [("refereed_boost", 1), ("doctype_boost", 1), ("recency_boost", 1)] ({} : Record)
      = some [("astronomy_final_boost", 1)] := by
  decide

/-- C3: the claim matches the spec's stated intent, but with a ranking
table holding exactly one distinct rank the comprehension
`{rank: 1 - (i / (len(unique_ranks) - 1)) ...}` divides by zero and
`compute_doctype_boost` raises (modelled as `none`) instead of
returning 1.0.  For two distinct ranks the evenly spaced mapping of the
claim does hold: rank 1 ↦ 1.0, rank 2 ↦ 0.0, ties collapsing. -/
theorem C3_single_rank_divides_by_zero :
    compute_doctype_boost ({ DOCTYPE_RANKING := some [("article", 1)] } : Config)
        ({ bib_data := some { doctype := some "article" } } : Record) = none ∧
    compute_doctype_boost
        ({ DOCTYPE_RANKING := some [("article", 1), ("abstract", 2), ("erratum", 2)] } : Config)
        ({ bib_data := some { doctype := some "article" } } : Record) = some 1 ∧
    compute_doctype_boost
        ({ DOCTYPE_RANKING := some [("article", 1), ("abstract", 2), ("erratum", 2)] } : Config)
        ({ bib_data := some { doctype := some "erratum" } } : Record) = some 0 := by
  decide

/-- C4, counterexample: with `pubdate = "2024-01-01"` (parseable) and
`entry_date = "not-a-date"` (unparseable) both present, the code
returns the neutral 1.0, not the decay value 761/911 that the
parseable pubdate alone would give at the same current date
(2024-03-01) — refuting the claim that the parseable date is used. -/
theorem C4_counterexample :
    compute_recency_boost ({} : Config) (toOrdinal 2024 3 1)
        ({ bib_data := some { pubdate := some "2024-01-01",
                              entry_date := some "not-a-date" } } : Record) = some 1 ∧
    compute_recency_boost ({} : Config) (toOrdinal 2024 3 1)
        ({ bib_data := some { pubdate := some "2024-01-01" } } : Record)
      = some (761 / 911) ∧
    ((761 : ℚ) / 911) ≠ 1 := by
  decide

/-- C4, amended: when `pubdate` and `entry_date` are both present
(truthy), both must parse for a reference date to exist; if exactly one
of them parses (after the `-00` fix applied to pubdate), the joint
`try`/`except` fails and the boost is the neutral 1.0.  A lone present
date is used only when it itself parses. -/
theorem C4_amended (config : Config) (now : ℕ) (record : Record) (bd : BibData) (p e : String)
    (hbd : record.bib_data = some bd) (hp : bd.pubdate = some p) (he : bd.entry_date = some e)
    (hpt : p ≠ "") (het : e ≠ "")
    (hone : (parseDateOrdinal (if endsWith00 p then sub00 p else p)).isSome
              ≠ (parseDateOrdinal e).isSome) :
    compute_recency_boost config now record = some 1 := by
  have href : recencyReference record = none := by
    unfold recencyReference
    rw [hbd]
    simp only [hp, he, strTruthy_some_of_ne p hpt, strTruthy_some_of_ne e het]
    by_cases hE : endsWith00 p = true
    · rw [hE] at hone
      simp only [if_true] at hone
      cases hpp : parseDateOrdinal (sub00 p) <;> cases hee : parseDateOrdinal e <;>
        simp_all [hE, strTruthy_some_of_ne _ (sub00_ne_empty p),
                  strTruthy_some_of_ne e het]
    · simp only [Bool.not_eq_true] at hE
      rw [hE] at hone
      simp only [Bool.false_eq_true, if_false] at hone
      cases hpp : parseDateOrdinal p <;> cases hee : parseDateOrdinal e <;>
        simp_all [hE, strTruthy_some_of_ne p hpt, strTruthy_some_of_ne e het]
  simp [compute_recency_boost, href]

/-- C4, witness for the amended theorem at the counterexample input. -/
theorem C4_witness :
    compute_recency_boost ({} : Config) (toOrdinal 2024 3 1)
        ({ bib_data := some { pubdate := some "2024-01-01",
                              entry_date := some "not-a-date" } } : Record) = some 1 :=
  C4_amended ({} : Config) (toOrdinal 2024 3 1) _ _ "2024-01-01" "not-a-date"
    rfl rfl rfl (by decide) (by decide) (by decide)

/-- C7, counterexample: an `entry_date` of `"2024-03-00"` is *not*
treated like `"2024-03-01"` — the `-00` substitution is applied to
`pubdate` only, so the entry date fails parsing and the boost falls
back to the neutral 1.0 while the day-01 counterpart yields the decay
value 761/991 at the same current date (2024-06-01). -/
theorem C7_counterexample :
    compute_recency_boost ({} : Config) (toOrdinal 2024 6 1)
        ({ bib_data := some { entry_date := some "2024-03-00" } } : Record) = some 1 ∧
    compute_recency_boost ({} : Config) (toOrdinal 2024 6 1)
        ({ bib_data := some { entry_date := some "2024-03-01" } } : Record)
      = some (761 / 991) ∧
    ((761 : ℚ) / 991) ≠ 1 := by
  decide

/-- C7, amended: the `-00` day-of-month substitution applies to
`pubdate` only.  A `pubdate` ending in `-00` is treated identically to
its day-01 counterpart (the whole recency boost is unchanged under the
substitution), while `entry_date` receives no such fix. -/
theorem C7_amended (config : Config) (now : ℕ) (r : Record) (bd : BibData) (s : String)
    (hbd : r.bib_data = some bd) (hp : bd.pubdate = some (s ++ "-00")) :
    compute_recency_boost config now r
      = compute_recency_boost config now
          { r with bib_data := some { bd with pubdate := some (s ++ "-01") } } := by
  have href : recencyReference r
      = recencyReference
          { r with bib_data := some { bd with pubdate := some (s ++ "-01") } } := by
    unfold recencyReference
    rw [hbd]
    simp only [hp, strTruthy_some_of_ne _ (append00_ne_empty s),
               strTruthy_some_of_ne _ (append01_ne_empty s),
               endsWith00_append00, endsWith00_append01, sub00_append00]
    simp
  simp [compute_recency_boost, href]

/-- C7, witness for the amended theorem: a record with
`pubdate = "2024-03" ++ "-00"` scores exactly like its day-01
counterpart. -/
theorem C7_witness :
    compute_recency_boost ({} : Config) (toOrdinal 2024 6 1)
        ({ bib_data := some { pubdate := some ("2024-03" ++ "-00") } } : Record)
      = compute_recency_boost ({} : Config) (toOrdinal 2024 6 1)
          ({ bib_data := some { pubdate := some ("2024-03" ++ "-01") } } : Record) :=
  C7_amended ({} : Config) (toOrdinal 2024 6 1) _ _ "2024-03" rfl rfl

/-- C5: if `general` is among the record's resolved collection tags —
whether from `classifications`, from `bib_data.database` (both after
lowercasing and space normalization, so `"General"` qualifies), or by
the empty-tags default — then every tracked discipline's weight is 1.0,
regardless of the contents of `COLLECTION_RANKINGS`. -/
theorem C5_general_tag_all_weights_one (config : Config) (record : Record)
    (hgen : "general" ∈ recordCollections record) :
    ∀ d ∈ config.COLLECTIONS.getD defaultCollections,
      (compute_collection_weights config record).lookup (d ++ "_weight") = some 1 := by
  intro d hd
  simp only [compute_collection_weights]
  split_ifs with h1 h2 h3
  · exact lookup_constWeightDict _ d hd
  · exact lookup_constWeightDict _ d hd
  · exact lookup_constWeightDict _ d hd
  · exact absurd ((contains_iff_mem _ _).mpr hgen) h3

/-- C5, witness: a record classified `"General"` (capitalized) gets
weight 1.0 for `astronomy` even though the configured rankings never
mention it. -/
theorem C5_witness :
    (compute_collection_weights
        ({ COLLECTION_RANKINGS :=
             some [("physics", [("physics", some 1), ("astronomy", some 2)])] } : Config)
        ({ classifications := some (.str "General") } : Record)).lookup
      ("astronomy" ++ "_weight") = some 1 :=
  C5_general_tag_all_weights_one _ _ (by decide) "astronomy" (by decide)

/-- C6, counterexample: a record whose only date is in the future
(pubdate 2025-06-01 seen from 2024-06-01) produces a *negative* age and
a recency boost of −1522/303 — far outside the claimed interval (0, 1].
The claim's formula part is honoured but the codomain claim fails. -/
theorem C6_counterexample :
    compute_recency_boost ({} : Config) (toOrdinal 2024 6 1)
        ({ bib_data := some { pubdate := some "2025-06-01" } } : Record)
      = some (-1522 / 303) ∧ ((-1522 : ℚ) / 303) < 0 := by
  decide

/-- C6, amended: for a usable reference date that does not lie in the
future (and a non-negative decay multiplier, the configuration
invariant), the boost is exactly 1.0 beyond 24 months of age and
`1 / (1 + multiplier * age_months)` otherwise, and the returned value
lies in (0, 1]. -/
theorem C6_amended (config : Config) (now : ℕ) (record : Record) (ref : ℕ)
    (href : recencyReference record = some ref)
    (hpast : ref ≤ now)
    (hm : 0 ≤ config.RECENCY_BOOST_MULTIPLIER.getD (1 / 10)) :
    ∃ q, compute_recency_boost config now record = some q ∧ 0 < q ∧ q ≤ 1 ∧
      ((24 < ageMonths now ref ∧ q = 1) ∨
       (ageMonths now ref ≤ 24 ∧
        q = 1 / (1 + config.RECENCY_BOOST_MULTIPLIER.getD (1 / 10) * ageMonths now ref))) := by
  have hage0 : 0 ≤ ageMonths now ref := by
    unfold ageMonths
    apply div_nonneg
    · have h : (ref : ℤ) ≤ (now : ℤ) := by exact_mod_cast hpast
      have : (0 : ℤ) ≤ (now : ℤ) - (ref : ℤ) := sub_nonneg.mpr h
      exact_mod_cast this
    · norm_num
  by_cases hage : 24 < ageMonths now ref
  · refine ⟨1, ?_, one_pos, le_refl 1, Or.inl ⟨hage, rfl⟩⟩
    simp [compute_recency_boost, href, hage]
  · push_neg at hage
    have hma : 0 ≤ config.RECENCY_BOOST_MULTIPLIER.getD (1 / 10) * ageMonths now ref :=
      mul_nonneg hm hage0
    have hden : (0 : ℚ) < 1 + config.RECENCY_BOOST_MULTIPLIER.getD (1 / 10) * ageMonths now ref := by
      linarith
    refine ⟨_, ?_, one_div_pos.mpr hden, ?_, Or.inr ⟨hage, rfl⟩⟩
    · simp [compute_recency_boost, href, not_lt.mpr hage]
      simpa using ne_of_gt hden
    · rw [div_le_one hden]
      linarith

/-- C6, witness for the amended theorem: a two-month-old record in a
default configuration. -/
theorem C6_witness :
    ∃ q, compute_recency_boost ({} : Config) (toOrdinal 2024 3 1)
        ({ bib_data := some { pubdate := some "2024-01-01" } } : Record) = some q ∧
      0 < q ∧ q ≤ 1 ∧
      ((24 < ageMonths (toOrdinal 2024 3 1) 738886 ∧ q = 1) ∨
       (ageMonths (toOrdinal 2024 3 1) 738886 ≤ 24 ∧
        q = 1 / (1 + ({} : Config).RECENCY_BOOST_MULTIPLIER.getD (1 / 10)
                        * ageMonths (toOrdinal 2024 3 1) 738886))) :=
  C6_amended ({} : Config) (toOrdinal 2024 3 1) _ 738886 (by decide) (by decide) (by decide)

/-- C9, counterexample: `classifications` is present (an empty list),
yet `bib_data.database` is consulted: the tags resolve to
`["physics"]`, and with rankings configured the `physics` weight comes
out 1/10 — not the all-1.0 weights the claim implies for a record whose
present `classifications` yields no tags (default `general`). -/
theorem C9_counterexample :
    recordCollections
        ({ classifications := some (.list []),
           bib_data := some { database := some (.str "physics") } } : Record) = ["physics"] ∧
    (compute_collection_weights
        ({ COLLECTION_RANKINGS :=
             some [("physics", [("physics", some 1), ("astronomy", some 2)])] } : Config)
        ({ classifications := some (.list []),
           bib_data := some { database := some (.str "physics") } } : Record)).lookup
      "physics_weight" = some (1 / 10) ∧
    ((1 : ℚ) / 10) ≠ 1 := by
  decide

/-- C9, amended: only a present *and truthy* (non-empty string or
non-empty list) `classifications` takes precedence: then the resolved
collection tags are independent of `bib_data` (in particular of
`database`).  A present-but-empty `classifications` falls through to
`bib_data.database`. -/
theorem C9_amended (r₁ r₂ : Record)
    (hcls : r₁.classifications = r₂.classifications)
    (ht : solTruthy r₁.classifications = true) :
    recordCollections r₁ = recordCollections r₂ := by
  unfold recordCollections
  rw [hcls] at ht ⊢
  simp [ht]

/-- C9, witness: with truthy classifications, changing the database
changes nothing. -/
theorem C9_witness :
    recordCollections
        ({ classifications := some (.str "Physics"),
           bib_data := some { database := some (.str "astronomy") } } : Record)
      = recordCollections ({ classifications := some (.str "Physics") } : Record) :=
  C9_amended _ _ rfl (by decide)

/-- C10, counterexample: the scoring call depends on the time of
invocation: the identical record and configuration scored at
2024-01-15 and at 2024-02-15 give different BoostFactors (the
`recency_boost` entry differs), refuting bit-identical idempotence
across invocations at different times. -/
theorem C10_counterexample :
    compute_boost_factors
        ({ DOCTYPE_RANKING := some [("article", 1), ("abstract", 2)],
           COLLECTION_RANKINGS := some [("astronomy", [("astronomy", some 2), ("physics", some 1)])],
           BOOST_FACTOR_WEIGHTS := some
             [("refereed_boost", 6 / 10), ("doctype_boost", 4 / 10), ("recency_boost", 0)] } : Config)
        (toOrdinal 2024 1 15)
        ({ bib_data := some { pubdate := some "2024-01-01", bibcode := some "B" } } : Record)
      ≠ compute_boost_factors
        ({ DOCTYPE_RANKING := some [("article", 1), ("abstract", 2)],
           COLLECTION_RANKINGS := some [("astronomy", [("astronomy", some 2), ("physics", some 1)])],
           BOOST_FACTOR_WEIGHTS := some
             [("refereed_boost", 6 / 10), ("doctype_boost", 4 / 10), ("recency_boost", 0)] } : Config)
        (toOrdinal 2024 2 15)
        ({ bib_data := some { pubdate := some "2024-01-01", bibcode := some "B" } } : Record) := by
  decide

/-- C10, amended: the scoring call is a deterministic function of
(Record, RankingConfig, current date): the current time enters only
through the recency stage, so any two invocations whose recency boosts
agree (in particular any two at the same current date) yield
bit-identical BoostFactors. -/
theorem C10_amended (config : Config) (record : Record) (now₁ now₂ : ℕ)
    (h : compute_recency_boost config now₁ record = compute_recency_boost config now₂ record) :
    compute_boost_factors config now₁ record = compute_boost_factors config now₂ record := by
  unfold compute_boost_factors
  rw [h]

/-- C10, witness: two invocations more than 24 months after
publication (where the recency stage is constant) agree exactly. -/
theorem C10_witness :
    compute_boost_factors
        ({ BOOST_FACTOR_WEIGHTS := some
             [("refereed_boost", 6 / 10), ("doctype_boost", 4 / 10), ("recency_boost", 0)] } : Config)
        (toOrdinal 2030 1 1)
        ({ bib_data := some { pubdate := some "2024-01-01" } } : Record)
      = compute_boost_factors
        ({ BOOST_FACTOR_WEIGHTS := some
             [("refereed_boost", 6 / 10), ("doctype_boost", 4 / 10), ("recency_boost", 0)] } : Config)
        (toOrdinal 2031 1 1)
        ({ bib_data := some { pubdate := some "2024-01-01" } } : Record) :=
  C10_amended _ _ _ _ (by decide)

/-- C8: with `BOOST_FACTOR_WEIGHTS` configured over the three boost
keys with non-negative weights, and a record whose three individual
boosts each lie in [0,1], any `boost_factor` the scoring call returns
lies in [0,1] (weights summing to 0 make the call raise instead of
returning, so nothing is returned there). -/
theorem C8_boost_factor_in_unit_interval (config : Config) (now : ℕ) (record : Record)
    (wr wd wc : ℚ)
    (hw : config.BOOST_FACTOR_WEIGHTS =
          some [("refereed_boost", wr), ("doctype_boost", wd), ("recency_boost", wc)])
    (hwr : 0 ≤ wr) (hwd : 0 ≤ wd) (hwc : 0 ≤ wc)
    (db rb : ℚ)
    (hdb : compute_doctype_boost config record = some db) (hdb0 : 0 ≤ db) (hdb1 : db ≤ 1)
    (hrb : compute_recency_boost config now record = some rb) (hrb0 : 0 ≤ rb) (hrb1 : rb ≤ 1) :
    ∀ out, compute_boost_factors config now record = some out →
      ∃ bf, out.lookup "boost_factor" = some bf ∧ 0 ≤ bf ∧ bf ≤ 1 := by
  intro out hout
  simp only [compute_boost_factors, hw, hdb, hrb, Option.getD_some, Option.bind_eq_bind,
             Option.some_bind, Option.pure_def] at hout
  by_cases ht0 : sumVals [("refereed_boost", wr), ("doctype_boost", wd), ("recency_boost", wc)] = 0
  · simp [ht0] at hout
  · rw [if_neg (fun hc => ht0 hc.2)] at hout
    have b1 : ("doctype_boost" == "refereed_boost") = false := by decide
    have b2 : ("recency_boost" == "refereed_boost") = false := by decide
    have b3 : ("recency_boost" == "doctype_boost") = false := by decide
    simp only [List.map_cons, List.map_nil, List.lookup, b1, b2, b3, beq_self_eq_true,
               Option.some_bind] at hout
    rw [Option.bind_eq_some] at hout
    obtain ⟨fb, hfb, heq⟩ := hout
    rw [Option.some.injEq] at heq
    subst heq
    have hS : sumVals [("refereed_boost", wr), ("doctype_boost", wd), ("recency_boost", wc)]
        = wr + (wd + wc) := by simp [sumVals]
    have tne : wr + (wd + wc) ≠ 0 := fun h => ht0 (by rw [hS, h])
    have tnn : (0 : ℚ) ≤ wr + (wd + wc) := by positivity
    have hcw_ne : ∀ p ∈ compute_collection_weights config record, p.1 ≠ "boost_factor" := by
      intro p hp
      rcases collection_weights_keys config record p hp with ⟨c, hc⟩
      rw [hc]; exact weight_key_ne_boost_factor c
    have hfb_ne : ∀ p ∈ fb, p.1 ≠ "boost_factor" := by
      intro p hp
      rcases compute_final_boost_keys config _ record fb hfb p hp with ⟨c, hc⟩
      rw [hc]; exact final_key_ne_boost_factor c
    rw [lookup_dictUpdate _ fb _ hfb_ne, lookup_dictUpdate _ _ _ hcw_ne, lookup_dictInsert]
    simp only [if_pos rfl]
    have hr0 : 0 ≤ compute_refereed_boost record := by
      rcases compute_refereed_boost_cases record with h | h <;> simp [h]
    have hr1 : compute_refereed_boost record ≤ 1 := by
      rcases compute_refereed_boost_cases record with h | h <;> simp [h]
    refine ⟨_, rfl, ?_, ?_⟩
    · rw [hS]
      exact add_nonneg (add_nonneg (mul_nonneg hr0 (div_nonneg hwr tnn))
        (mul_nonneg hdb0 (div_nonneg hwd tnn))) (mul_nonneg hrb0 (div_nonneg hwc tnn))
    · rw [hS]
      have h1 : compute_refereed_boost record * (wr / (wr + (wd + wc))) ≤ wr / (wr + (wd + wc)) :=
        mul_le_of_le_one_left (div_nonneg hwr tnn) hr1
      have h2 : db * (wd / (wr + (wd + wc))) ≤ wd / (wr + (wd + wc)) :=
        mul_le_of_le_one_left (div_nonneg hwd tnn) hdb1
      have h3 : rb * (wc / (wr + (wd + wc))) ≤ wc / (wr + (wd + wc)) :=
        mul_le_of_le_one_left (div_nonneg hwc tnn) hrb1
      have hsum : wr / (wr + (wd + wc)) + wd / (wr + (wd + wc)) + wc / (wr + (wd + wc)) = 1 := by
        rw [div_add_div_same, div_add_div_same]
        rw [show wr + wd + wc = wr + (wd + wc) by ring]
        exact div_self tne
      linarith

/-- C8, witness: the default production weights (0.6 / 0.4 / 0.0) on an
empty record, with one tracked discipline. -/
theorem C8_witness :
    ∃ bf, List.lookup "boost_factor"
        [("refereed_boost", (0 : ℚ)), ("doctype_boost", 0), ("recency_boost", 1),
         ("boost_factor", 0), ("astronomy_weight", 1), ("astronomy_final_boost", 0)]
      = some bf ∧ 0 ≤ bf ∧ bf ≤ 1 :=
  C8_boost_factor_in_unit_interval
    ({ BOOST_FACTOR_WEIGHTS := some
         [("refereed_boost", 6 / 10), ("doctype_boost", 4 / 10), ("recency_boost", 0)],
       COLLECTIONS := some ["astronomy"] } : Config)
    739038 ({} : Record) (6 / 10) (4 / 10) 0 rfl (by decide) (by decide) (by decide)
    0 1 (by decide) (by decide) (by decide) (by decide) (by decide) (by decide)
    [("refereed_boost", 0), ("doctype_boost", 0), ("recency_boost", 1),
     ("boost_factor", 0), ("astronomy_weight", 1), ("astronomy_final_boost", 0)]
    (by decide)

end ADSBoost
